import Mathlib

/-!
Verification of the peer-connection negotiation layer of the OLUNOX
repository (`src/src/hooks/useServerlessWebRTC.ts`).

The hook keeps its state in a family of mutable `Map`/`Set` refs indexed by
peer id (`peerConnections`, `connectionAttempts`, `pendingOffers`,
`isInitiator`, `connectionStates`, `establishedConnections`,
`iceCandidateQueue`, `remoteStreams`).  We embed that state as a record of
association lists keyed by `String`, and each handler
(`createPeerConnection`, `removePeerConnection`, `handleConnectionFailure`,
`initiateCall`, `handleOffer`, `handleAnswer`, `handleIceCandidate`,
`establishConnections`, the `onconnectionstatechange` handler and the two
`setTimeout` callbacks) as a pure state transformer.

Observable side effects of the TypeScript code that are not stored in the
refs are recorded in ghost log fields of the state:
`sent` records every `sendSignalingMessage(type, to, ...)` call,
`closedLog` records every `pc.close()` call,
`scheduledRetries` records every retry `setTimeout` together with its delay,
`scheduledCalls` records the staggered `setTimeout`s of
`establishConnections`, and `scheduledGraceChecks` records the 10-second
disconnect grace checks.
-/

/-- `RTCPeerConnection.connectionState` values used by the hook. -/
inductive ConnState where
  | new
  | connecting
  | connected
  | disconnected
  | failed
  | closed
deriving DecidableEq, Repr

/-- The signaling states the hook inspects (`pc.signalingState`). -/
inductive SigState where
  | stable
  | haveLocalOffer
  | haveRemoteOffer
deriving DecidableEq, Repr

/-- Session descriptions: only the offer/answer tag matters to the hook. -/
inductive Desc where
  | offer
  | answer
deriving DecidableEq, Repr

/-- Model of one `RTCPeerConnection` object.  `appliedCandidates` is the
ghost log of `pc.addIceCandidate(...)` calls made on this object, in call
order. -/
structure PC where
  connectionState : ConnState
  signalingState : SigState
  remoteDescription : Option Desc
  appliedCandidates : List Nat
deriving DecidableEq, Repr

/-- A freshly constructed `new RTCPeerConnection(...)`. -/
def freshPC : PC :=
  { connectionState := ConnState.new
    signalingState := SigState.stable
    remoteDescription := none
    appliedCandidates := [] }

/-- The `connected || connecting` reuse test that appears in
`createPeerConnection`, `initiateCall` and `handleOffer`. -/
def isWorking (pc : PC) : Bool :=
  pc.connectionState == ConnState.connected || pc.connectionState == ConnState.connecting

/-- A JavaScript `Map<string, α>`, embedded as an association list with at
most one entry per key. -/
abbrev SMap (α : Type) : Type := List (String × α)

/-- `Map.get`. -/
def aget {α : Type} : SMap α → String → Option α
  | [], _ => none
  | (k', v) :: m, k => if k' == k then some v else aget m k

/-- `Map.delete`. -/
def aerase {α : Type} : SMap α → String → SMap α
  | [], _ => []
  | (k', v) :: m, k => if k' == k then aerase m k else (k', v) :: aerase m k

/-- `Map.set`. -/
def aset {α : Type} (m : SMap α) (k : String) (v : α) : SMap α :=
  (k, v) :: aerase m k

/-- `Set.add` (no-op on an element already present). -/
def padd (l : List String) (x : String) : List String :=
  if l.contains x then l else l ++ [x]

/-- Keys are pairwise distinct: the basic well-formedness of a `Map`. -/
def NodupKeys {α : Type} (m : SMap α) : Prop :=
  (m.map Prod.fst).Nodup

instance {α : Type} (m : SMap α) : Decidable (NodupKeys m) :=
  inferInstanceAs (Decidable (m.map Prod.fst).Nodup)

/-- The whole mutable state of one `useServerlessWebRTC` hook instance.
`localStream` is whether `startLocalStream` has succeeded; `gameId` and
`playerId` are the hook arguments (`playerId` as an `Option` because the
hook takes it as an optional parameter). -/
structure HookState where
  localStream : Bool
  gameId : Bool
  playerId : Option String
  peerConnections : SMap PC
  connectionAttempts : SMap Nat
  pendingOffers : List String
  isInitiator : SMap Bool
  connectionStates : SMap ConnState
  establishedConnections : List String
  iceCandidateQueue : SMap (List Nat)
  remoteStreams : List String
  sent : List (String × String)
  closedLog : List PC
  scheduledRetries : List (String × Nat)
  scheduledCalls : List (String × Nat)
  scheduledGraceChecks : List String
deriving DecidableEq, Repr

/-- State of a hook for local player `me` right after `startLocalStream`
succeeded, before any negotiation. -/
def initState (me : String) : HookState :=
  { localStream := true
    gameId := true
    playerId := some me
    peerConnections := []
    connectionAttempts := []
    pendingOffers := []
    isInitiator := []
    connectionStates := []
    establishedConnections := []
    iceCandidateQueue := []
    remoteStreams := []
    sent := []
    closedLog := []
    scheduledRetries := []
    scheduledCalls := []
    scheduledGraceChecks := [] }

/-- `sendSignalingMessage(type, to, payload)`: returns early unless both
`gameId` and `playerId` are present; otherwise POSTs the message (recorded
in the `sent` ghost log). -/
def sendSignalingMessage (s : HookState) (type toP : String) : HookState :=
  if s.gameId && s.playerId.isSome then { s with sent := s.sent ++ [(type, toP)] } else s

/-- The tail of `createPeerConnection` once the decision to build a fresh
`RTCPeerConnection` has been made: registers the new object in
`peerConnections`/`isInitiator`/`connectionStates` and then drains any
queued ICE candidates into it (deleting the queue entry when it was
non-empty).  Note the drained candidates are passed to `addIceCandidate`
on a connection that has no remote description yet; the real environment
rejects such calls, which the code only logs (`.catch(console.error)`). -/
def createPeerConnectionNew (s : HookState) (peerId : String) (isInitiatingCall : Bool) :
    PC × HookState :=
  let queued := (aget s.iceCandidateQueue peerId).getD []
  let pc : PC := { freshPC with appliedCandidates := queued }
  ( pc
  , { s with
      peerConnections := aset s.peerConnections peerId pc
      isInitiator := aset s.isInitiator peerId isInitiatingCall
      connectionStates := aset s.connectionStates peerId pc.connectionState
      iceCandidateQueue :=
        if queued.isEmpty then s.iceCandidateQueue else aerase s.iceCandidateQueue peerId } )

/-- `createPeerConnection(peerId, isInitiatingCall)`: reuses an existing
connection that is `connected`/`connecting`; otherwise closes the existing
one (if any) and builds a fresh one. -/
def createPeerConnection (s : HookState) (peerId : String) (isInitiatingCall : Bool) :
    PC × HookState :=
  match aget s.peerConnections peerId with
  | some existingPc =>
      if isWorking existingPc then
        (existingPc, s)
      else
        createPeerConnectionNew { s with closedLog := s.closedLog ++ [existingPc] }
          peerId isInitiatingCall
  | none => createPeerConnectionNew s peerId isInitiatingCall

/-- `removePeerConnection(peerId)`: closes and deletes the connection and
erases every per-peer entry keyed by `peerId`, including the remote
stream. -/
def removePeerConnection (s : HookState) (peerId : String) : HookState :=
  let s1 :=
    match aget s.peerConnections peerId with
    | some pc =>
        { s with
          closedLog := s.closedLog ++ [pc]
          peerConnections := aerase s.peerConnections peerId }
    | none => s
  { s1 with
    connectionAttempts := aerase s1.connectionAttempts peerId
    pendingOffers := s1.pendingOffers.filter (fun x => x != peerId)
    isInitiator := aerase s1.isInitiator peerId
    connectionStates := aerase s1.connectionStates peerId
    establishedConnections := s1.establishedConnections.filter (fun x => x != peerId)
    iceCandidateQueue := aerase s1.iceCandidateQueue peerId
    remoteStreams := s1.remoteStreams.filter (fun x => x != peerId) }

/-- `handleConnectionFailure(peerId)`: retries (with a
`2000 + attempts * 2000` ms `setTimeout`, recorded in `scheduledRetries`)
when the attempt count is below 3 and this side was the initiator;
otherwise just removes the connection. -/
def handleConnectionFailure (s : HookState) (peerId : String) : HookState :=
  let attempts := (aget s.connectionAttempts peerId).getD 0
  let wasInitiator := (aget s.isInitiator peerId).getD false
  if attempts < 3 ∧ wasInitiator = true then
    let s1 := { s with connectionAttempts := aset s.connectionAttempts peerId (attempts + 1) }
    let s2 := removePeerConnection s1 peerId
    { s2 with scheduledRetries := s2.scheduledRetries ++ [(peerId, 2000 + attempts * 2000)] }
  else
    removePeerConnection s peerId

/-- Mutation of the pooled connection object for `p` (JS object mutation is
visible through the map that references it). -/
def setPoolPC (s : HookState) (p : String) (f : PC → PC) : HookState :=
  match aget s.peerConnections p with
  | some pc => { s with peerConnections := aset s.peerConnections p (f pc) }
  | none => s

/-- `initiateCall(peerId)`: guarded on local stream / ids, on a pending
offer, and on an already-working connection; otherwise records the pending
offer, builds the connection as initiator, creates and sets the local
offer, and sends it. -/
def initiateCall (s : HookState) (peerId : String) : HookState :=
  if !s.localStream || !s.gameId || s.playerId.isNone then s
  else if s.pendingOffers.contains peerId then s
  else if (aget s.peerConnections peerId).elim false isWorking then s
  else
    let s1 := { s with pendingOffers := padd s.pendingOffers peerId }
    let s2 := (createPeerConnection s1 peerId true).2
    let s3 := setPoolPC s2 peerId (fun pc => { pc with signalingState := SigState.haveLocalOffer })
    sendSignalingMessage s3 "offer" peerId

/-- Lexicographic comparison of character sequences: the semantics of the
JavaScript `<` operator on strings. -/
def strLtChars : List Char → List Char → Bool
  | [], [] => false
  | [], _ :: _ => true
  | _ :: _, [] => false
  | c :: cs, d :: ds => if c < d then true else if d < c then false else strLtChars cs ds

/-- `a < b` on strings, JavaScript style. -/
def strLt (a b : String) : Bool := strLtChars a.data b.data

/-- The JavaScript comparison `playerId! < from` (an absent `playerId`
compares `false`, as `undefined < s` does). -/
def optLt : Option String → String → Bool
  | some a, b => strLt a b
  | none, _ => false

/-- `handleOffer(from, offer)`: guarded on local stream / game id, on an
already-working connection, and on the glare tie-break
(`pendingOffers.has(from) && playerId! < from` ignores the offer);
otherwise builds the connection as responder, applies the remote offer,
creates/sets the local answer and sends it. -/
def handleOffer (s : HookState) (fromP : String) : HookState :=
  if !s.localStream || !s.gameId then s
  else if (aget s.peerConnections fromP).elim false isWorking then s
  else if s.pendingOffers.contains fromP && optLt s.playerId fromP then s
  else
    let s1 := (createPeerConnection s fromP false).2
    let s2 := setPoolPC s1 fromP (fun pc =>
      { pc with remoteDescription := some Desc.offer, signalingState := SigState.stable })
    sendSignalingMessage s2 "answer" fromP

/-- `handleAnswer(from, answer)`: applies the answer only when a connection
exists and is in `have-local-offer`, then clears the pending-offer flag;
in every other situation it only logs a warning. -/
def handleAnswer (s : HookState) (fromP : String) : HookState :=
  match aget s.peerConnections fromP with
  | some pc =>
      if pc.signalingState == SigState.haveLocalOffer then
        { s with
          peerConnections := aset s.peerConnections fromP
            { pc with remoteDescription := some Desc.answer, signalingState := SigState.stable }
          pendingOffers := s.pendingOffers.filter (fun x => x != fromP) }
      else s
  | none => s

/-- The queueing branch of `handleIceCandidate`. -/
def queueCandidate (s : HookState) (fromP : String) (c : Nat) : HookState :=
  { s with
    iceCandidateQueue :=
      aset s.iceCandidateQueue fromP (((aget s.iceCandidateQueue fromP).getD []) ++ [c]) }

/-- `handleIceCandidate(from, candidate)`: applies the candidate directly
when the connection exists and already has a remote description; otherwise
appends it to the per-peer queue. -/
def handleIceCandidate (s : HookState) (fromP : String) (c : Nat) : HookState :=
  match aget s.peerConnections fromP with
  | some pc =>
      if pc.remoteDescription.isSome then
        { s with
          peerConnections := aset s.peerConnections fromP
            { pc with appliedCandidates := pc.appliedCandidates ++ [c] } }
      else queueCandidate s fromP c
  | none => queueCandidate s fromP c

/-- `establishConnections(peerIds)`: guarded on local stream / ids /
non-empty input; schedules a staggered `initiateCall` (`index * 1500` ms)
for every peer not already in `establishedConnections` (recorded in the
`scheduledCalls` ghost log). -/
def establishConnections (s : HookState) (peerIds : List String) : HookState :=
  if !s.localStream || !s.gameId || s.playerId.isNone || peerIds.isEmpty then s
  else
    { s with
      scheduledCalls := s.scheduledCalls ++
        ((peerIds.enum.filter
            (fun e => !(s.establishedConnections.contains e.2))).map
          (fun e => (e.2, e.1 * 1500))) }

/-- The retry `setTimeout` callback inside `handleConnectionFailure`:
`if (localStream && !peerConnections.has(peerId)) initiateCall(peerId)`. -/
def retryFire (s : HookState) (peerId : String) : HookState :=
  if s.localStream && (aget s.peerConnections peerId).isNone then initiateCall s peerId else s

/-- The `onconnectionstatechange` handler: the environment has already
moved `pc.connectionState` to `newState` when it runs.  On `connected` it
clears attempts/pending and marks the peer established; on `failed` it
runs failure handling; on `disconnected` it schedules the 10-second grace
check (ghost-logged in `scheduledGraceChecks`). -/
def connStateChange (s : HookState) (peerId : String) (newState : ConnState) : HookState :=
  if aget s.connectionStates peerId == some newState then s
  else
    let s1 :=
      match aget s.peerConnections peerId with
      | some pc =>
          { s with
            peerConnections := aset s.peerConnections peerId { pc with connectionState := newState } }
      | none => s
    let s2 := { s1 with connectionStates := aset s1.connectionStates peerId newState }
    match newState with
    | ConnState.connected =>
        { s2 with
          connectionAttempts := aerase s2.connectionAttempts peerId
          pendingOffers := s2.pendingOffers.filter (fun x => x != peerId)
          establishedConnections := padd s2.establishedConnections peerId }
    | ConnState.failed =>
        handleConnectionFailure
          { s2 with
            establishedConnections := s2.establishedConnections.filter (fun x => x != peerId) }
          peerId
    | ConnState.disconnected =>
        { s2 with
          establishedConnections := s2.establishedConnections.filter (fun x => x != peerId)
          scheduledGraceChecks := s2.scheduledGraceChecks ++ [peerId] }
    | _ => s2

/-- The grace window of the `disconnected` branch: `setTimeout(..., 10000)`. -/
def GRACE_MS : Nat := 10000

/-- Whether the grace-window callback scheduled at time `t` triggers
failure handling: it re-reads `pc.connectionState` when it fires, at
`t + 10000`. -/
def disconnectGraceCheck (connState : Nat → ConnState) (t : Nat) : Bool :=
  connState (t + GRACE_MS) == ConnState.disconnected

/-- The grace-window callback acting on the pool state: runs
`handleConnectionFailure(peerId)` exactly when the connection reads
`disconnected` at fire time. -/
def disconnectGraceStep (connState : Nat → ConnState) (t : Nat) (s : HookState)
    (peerId : String) : HookState :=
  if disconnectGraceCheck connState t then handleConnectionFailure s peerId else s

/-- One entry-point invocation of the hook: every way the pool state can
change (poller-dispatched handlers, UI calls, environment callbacks and the
timer callbacks). -/
inductive Step : HookState → HookState → Prop where
  | initiate (s : HookState) (p : String) : Step s (initiateCall s p)
  | offer (s : HookState) (p : String) : Step s (handleOffer s p)
  | answer (s : HookState) (p : String) : Step s (handleAnswer s p)
  | ice (s : HookState) (p : String) (c : Nat) : Step s (handleIceCandidate s p c)
  | establish (s : HookState) (l : List String) : Step s (establishConnections s l)
  | remove (s : HookState) (p : String) : Step s (removePeerConnection s p)
  | fail (s : HookState) (p : String) : Step s (handleConnectionFailure s p)
  | connChange (s : HookState) (p : String) (st : ConnState) : Step s (connStateChange s p st)
  | retry (s : HookState) (p : String) : Step s (retryFire s p)
  | grace (s : HookState) (f : Nat → ConnState) (t : Nat) (p : String) :
      Step s (disconnectGraceStep f t s p)

/-- States reachable by the hook of local player `me` from its initial
state. -/
inductive Reachable (me : String) : HookState → Prop where
  | init : Reachable me (initState me)
  | step {s t : HookState} : Reachable me s → Step s t → Reachable me t

/-- Peer `a` right after initiating a call to peer `b`: the pending-offer
state in which a glare can occur. -/
def glareA : HookState := initiateCall (initState "a") "b"

/-- Peer `b` right after initiating a call to peer `a`. -/
def glareB : HookState := initiateCall (initState "b") "a"

/-- C2 scenario: initiator `a` calls `b`; a candidate from `b` arrives
before the answer (so it is queued); then `b`'s answer arrives and the
remote description is set. -/
def candidateAfterAnswer : HookState := handleAnswer (handleIceCandidate glareA "b" 42) "b"

/-- One failure/retry round for peer `p`: the environment reports the
connection `failed` (running `handleConnectionFailure` through the state
handler) and then the scheduled retry timer fires. -/
def failRound (p : String) (s : HookState) : HookState :=
  retryFire (connStateChange s p ConnState.failed) p

/-- `n` consecutive failure/retry rounds. -/
def iterRound (p : String) : Nat → HookState → HookState
  | 0, s => s
  | n + 1, s => iterRound p n (failRound p s)

/-- A hook whose `startLocalStream` has not (yet) succeeded. -/
def noMediaState : HookState := { initState "a" with localStream := false }

/-- A connection-state timeline with a transient recovery: `disconnected`
from time 0, back to `connected` at 5000 ms, `disconnected` again
afterwards. -/
def blipTimeline : Nat → ConnState :=
  fun u => if u == 5000 then ConnState.connected else ConnState.disconnected

/-- A pool state of player `a` holding one connected, stable connection to
`b`, used to exercise the stale-message guards. -/
def connectedPC : PC :=
  { connectionState := ConnState.connected
    signalingState := SigState.stable
    remoteDescription := some Desc.answer
    appliedCandidates := [] }

/-- A pool state of player `a` holding one connected, stable connection to
`b`, reached by a complete successful negotiation: offer out, answer in,
environment reports `connected`. -/
def connectedState : HookState :=
  connStateChange (handleAnswer (initiateCall (initState "a") "b") "b") "b" ConnState.connected

/-- The connection object sitting in the pool right after `initiateCall`:
fresh, with the local offer set. -/
def offerPC : PC := { freshPC with signalingState := SigState.haveLocalOffer }

/-- Player `a` with outstanding offers to two peers `b` and `c`. -/
def twoPeers : HookState := initiateCall (initiateCall (initState "a") "b") "c"

/-! ### Association-list map lemmas -/

theorem aget_aset_self {α : Type} (m : SMap α) (k : String) (v : α) :
    aget (aset m k v) k = some v := by
  simp [aset, aget]

theorem aget_aerase_ne {α : Type} {k k' : String} (h : k' ≠ k) (m : SMap α) :
    aget (aerase m k) k' = aget m k' := by
  induction m with
  | nil => rfl
  | cons e m ih =>
    obtain ⟨k0, v0⟩ := e
    by_cases hk : k0 = k
    · subst hk
      have hne : (k0 == k') = false := by
        simpa [beq_iff_eq] using fun hkk => h hkk.symm
      simp [aerase, aget, hne, ih]
    · simp [aerase, aget, beq_iff_eq, hk, ih]

theorem aget_aset_ne {α : Type} {k k' : String} (h : k' ≠ k) (m : SMap α) (v : α) :
    aget (aset m k v) k' = aget m k' := by
  have hne : (k == k') = false := by
    simpa [beq_iff_eq] using fun hkk => h hkk.symm
  simp [aset, aget, hne, aget_aerase_ne h m]

theorem aget_aerase_self {α : Type} (m : SMap α) (k : String) :
    aget (aerase m k) k = none := by
  induction m with
  | nil => rfl
  | cons e m ih =>
    obtain ⟨k0, v0⟩ := e
    by_cases hk : k0 = k
    · simp [aerase, hk, ih]
    · simp [aerase, aget, beq_iff_eq, hk, ih]

theorem keys_aerase_sublist {α : Type} (m : SMap α) (k : String) :
    ((aerase m k).map Prod.fst).Sublist (m.map Prod.fst) := by
  induction m with
  | nil => simp [aerase]
  | cons e m ih =>
    obtain ⟨k0, v0⟩ := e
    by_cases hk : k0 = k
    · simpa [aerase, hk] using ih.cons k0
    · simpa [aerase, beq_iff_eq, hk] using ih.cons₂ k0

theorem not_mem_keys_aerase {α : Type} (m : SMap α) (k : String) :
    k ∉ (aerase m k).map Prod.fst := by
  induction m with
  | nil => simp [aerase]
  | cons e m ih =>
    obtain ⟨k0, v0⟩ := e
    by_cases hk : k0 = k
    · simpa [aerase, hk] using ih
    · have hcond : ¬((k0 == k) = true) := by simp [beq_iff_eq, hk]
      simp only [aerase, if_neg hcond, List.map_cons, List.mem_cons, not_or]
      exact ⟨fun h => hk h.symm, ih⟩

theorem nodupKeys_aerase {α : Type} (m : SMap α) (k : String) (h : NodupKeys m) :
    NodupKeys (aerase m k) :=
  h.sublist (keys_aerase_sublist m k)

theorem nodupKeys_aset {α : Type} (m : SMap α) (k : String) (v : α) (h : NodupKeys m) :
    NodupKeys (aset m k v) := by
  refine List.Nodup.cons (not_mem_keys_aerase m k) (nodupKeys_aerase m k h)

theorem contains_filter_ne (l : List String) {x y : String} (h : y ≠ x) :
    (l.filter (fun z => z != x)).contains y = l.contains y := by
  simp [h]

/-! ### Lexicographic string comparison: asymmetry and totality -/

theorem strLtChars_asymm (l : List Char) :
    ∀ m, strLtChars l m = true → strLtChars m l = false := by
  induction l with
  | nil =>
    intro m hm
    cases m with
    | nil => simp [strLtChars]
    | cons d ds => simp [strLtChars]
  | cons c cs ih =>
    intro m hm
    cases m with
    | nil => simp [strLtChars] at hm
    | cons d ds =>
      by_cases hcd : c < d
      · simp [strLtChars, lt_asymm hcd, hcd]
      · by_cases hdc : d < c
        · simp [strLtChars, hcd, hdc] at hm
        · have htail : strLtChars cs ds = true := by
            simpa [strLtChars, hcd, hdc] using hm
          simp [strLtChars, hcd, hdc, ih ds htail]

theorem strLtChars_total (l : List Char) :
    ∀ m, l ≠ m → strLtChars l m = true ∨ strLtChars m l = true := by
  induction l with
  | nil =>
    intro m hm
    cases m with
    | nil => exact absurd rfl hm
    | cons d ds => left; simp [strLtChars]
  | cons c cs ih =>
    intro m hm
    cases m with
    | nil => right; simp [strLtChars]
    | cons d ds =>
      rcases lt_trichotomy c d with hcd | hcd | hcd
      · left; simp [strLtChars, hcd]
      · subst hcd
        have htail : cs ≠ ds := fun h => hm (by rw [h])
        rcases ih ds htail with h | h
        · left; simp [strLtChars, lt_irrefl, h]
        · right; simp [strLtChars, lt_irrefl, h]
      · right; simp [strLtChars, hcd]

theorem strLt_asymm {a b : String} (h : strLt a b = true) : strLt b a = false :=
  strLtChars_asymm a.data b.data h

theorem strLt_total {a b : String} (h : a ≠ b) :
    strLt a b = true ∨ strLt b a = true := by
  exact strLtChars_total a.data b.data fun hdata => h (congrArg String.mk hdata)

/-! ### Glare-resolution helper lemmas about `handleOffer` -/

/-- When the local side has a pending offer toward `fromP` and its own id
is lexicographically smaller, `handleOffer` leaves the state untouched. -/
theorem handleOffer_ignored (s : HookState) {me fromP : String}
    (hid : s.playerId = some me) (hpend : s.pendingOffers.contains fromP = true)
    (hlt : strLt me fromP = true) :
    handleOffer s fromP = s := by
  have hpend' : fromP ∈ s.pendingOffers := by simpa using hpend
  simp [handleOffer, hid, hpend', hlt, optLt]

/-- When the guards pass and the local id is not smaller, `handleOffer`
builds a responder connection and sends an answer. -/
theorem handleOffer_responds (s : HookState) {me fromP : String}
    (hls : s.localStream = true) (hg : s.gameId = true) (hid : s.playerId = some me)
    (hnw : (aget s.peerConnections fromP).elim false isWorking = false)
    (hnlt : strLt me fromP = false) :
    aget (handleOffer s fromP).isInitiator fromP = some false ∧
    (handleOffer s fromP).sent = s.sent ++ [("answer", fromP)] := by
  cases hpc : aget s.peerConnections fromP with
  | none =>
    simp [handleOffer, hls, hg, hid, optLt, hnlt, hpc, createPeerConnection,
      createPeerConnectionNew, setPoolPC, sendSignalingMessage, aget_aset_self]
  | some pc =>
    have hw : isWorking pc = false := by simpa [hpc] using hnw
    simp [handleOffer, hls, hg, hid, optLt, hnlt, hpc, hw, createPeerConnection,
      createPeerConnectionNew, setPoolPC, sendSignalingMessage, aget_aset_self]

theorem mem_filter_ne {x y : String} (h : y ≠ x) (l : List String) :
    y ∈ l.filter (fun z => z != x) ↔ y ∈ l := by
  simp [List.mem_filter, h]

/-! ### Frame lemmas: removal and failure handling only touch their peer -/

theorem sendMsg_frame (s : HookState) (t p : String) :
    (sendSignalingMessage s t p).peerConnections = s.peerConnections ∧
    (sendSignalingMessage s t p).isInitiator = s.isInitiator ∧
    (sendSignalingMessage s t p).pendingOffers = s.pendingOffers := by
  unfold sendSignalingMessage
  split <;> exact ⟨rfl, rfl, rfl⟩

theorem removePeer_frame (s : HookState) {x y : String} (h : y ≠ x) :
    aget (removePeerConnection s x).peerConnections y = aget s.peerConnections y ∧
    aget (removePeerConnection s x).connectionAttempts y = aget s.connectionAttempts y ∧
    ((y ∈ (removePeerConnection s x).pendingOffers) ↔ y ∈ s.pendingOffers) ∧
    aget (removePeerConnection s x).isInitiator y = aget s.isInitiator y ∧
    aget (removePeerConnection s x).connectionStates y = aget s.connectionStates y ∧
    ((y ∈ (removePeerConnection s x).establishedConnections) ↔
      y ∈ s.establishedConnections) ∧
    aget (removePeerConnection s x).iceCandidateQueue y = aget s.iceCandidateQueue y ∧
    ((y ∈ (removePeerConnection s x).remoteStreams) ↔ y ∈ s.remoteStreams) := by
  unfold removePeerConnection
  cases hpc : aget s.peerConnections x <;>
    simp [aget_aerase_ne h, List.mem_filter, h]

theorem handleFailure_frame (s : HookState) {x y : String} (h : y ≠ x) :
    aget (handleConnectionFailure s x).peerConnections y = aget s.peerConnections y ∧
    aget (handleConnectionFailure s x).connectionAttempts y = aget s.connectionAttempts y ∧
    ((y ∈ (handleConnectionFailure s x).pendingOffers) ↔ y ∈ s.pendingOffers) ∧
    aget (handleConnectionFailure s x).isInitiator y = aget s.isInitiator y ∧
    aget (handleConnectionFailure s x).connectionStates y = aget s.connectionStates y ∧
    ((y ∈ (handleConnectionFailure s x).establishedConnections) ↔
      y ∈ s.establishedConnections) ∧
    aget (handleConnectionFailure s x).iceCandidateQueue y = aget s.iceCandidateQueue y ∧
    ((y ∈ (handleConnectionFailure s x).remoteStreams) ↔ y ∈ s.remoteStreams) := by
  unfold handleConnectionFailure
  dsimp only
  split
  · obtain ⟨f1, f2, f3, f4, f5, f6, f7, f8⟩ :=
      removePeer_frame
        { s with
          connectionAttempts :=
            aset s.connectionAttempts x ((aget s.connectionAttempts x).getD 0 + 1) } h
    exact ⟨f1, f2.trans (aget_aset_ne h s.connectionAttempts _), f3, f4, f5, f6, f7, f8⟩
  · exact removePeer_frame s h

/-! ### Key uniqueness is preserved by every operation -/

theorem nodup_createPCNew (s : HookState) (p : String) (i : Bool)
    (h : NodupKeys s.peerConnections) :
    NodupKeys (createPeerConnectionNew s p i).2.peerConnections := by
  simpa [createPeerConnectionNew] using nodupKeys_aset s.peerConnections p _ h

theorem nodup_createPC (s : HookState) (p : String) (i : Bool)
    (h : NodupKeys s.peerConnections) :
    NodupKeys (createPeerConnection s p i).2.peerConnections := by
  unfold createPeerConnection
  cases hpc : aget s.peerConnections p with
  | none => exact nodup_createPCNew s p i h
  | some pc =>
    by_cases hw : isWorking pc
    · simp only [hw, if_true]
      exact h
    · simp only [hw, if_false, Bool.false_eq_true]
      exact nodup_createPCNew _ p i h

theorem nodup_setPoolPC (s : HookState) (p : String) (f : PC → PC)
    (h : NodupKeys s.peerConnections) :
    NodupKeys (setPoolPC s p f).peerConnections := by
  unfold setPoolPC
  cases hpc : aget s.peerConnections p with
  | none => exact h
  | some pc => exact nodupKeys_aset s.peerConnections p _ h

theorem nodup_removePeer (s : HookState) (p : String)
    (h : NodupKeys s.peerConnections) :
    NodupKeys (removePeerConnection s p).peerConnections := by
  unfold removePeerConnection
  cases hpc : aget s.peerConnections p with
  | none => exact h
  | some pc => exact nodupKeys_aerase s.peerConnections p h

theorem nodup_failure (s : HookState) (p : String)
    (h : NodupKeys s.peerConnections) :
    NodupKeys (handleConnectionFailure s p).peerConnections := by
  unfold handleConnectionFailure
  dsimp only
  split
  · exact nodup_removePeer _ p h
  · exact nodup_removePeer s p h

theorem nodup_initiateCall (s : HookState) (p : String)
    (h : NodupKeys s.peerConnections) :
    NodupKeys (initiateCall s p).peerConnections := by
  unfold initiateCall
  split
  · exact h
  split
  · exact h
  split
  · exact h
  rw [(sendMsg_frame _ _ _).1]
  exact nodup_setPoolPC _ p _ (nodup_createPC _ p true h)

theorem nodup_handleOffer (s : HookState) (p : String)
    (h : NodupKeys s.peerConnections) :
    NodupKeys (handleOffer s p).peerConnections := by
  unfold handleOffer
  split
  · exact h
  split
  · exact h
  split
  · exact h
  rw [(sendMsg_frame _ _ _).1]
  exact nodup_setPoolPC _ p _ (nodup_createPC _ p false h)

theorem nodup_handleAnswer (s : HookState) (p : String)
    (h : NodupKeys s.peerConnections) :
    NodupKeys (handleAnswer s p).peerConnections := by
  unfold handleAnswer
  cases hpc : aget s.peerConnections p with
  | none => exact h
  | some pc =>
    dsimp only
    by_cases hs : (pc.signalingState == SigState.haveLocalOffer) = true
    · rw [if_pos hs]
      exact nodupKeys_aset s.peerConnections p _ h
    · rw [if_neg hs]
      exact h

theorem nodup_handleIce (s : HookState) (p : String) (c : Nat)
    (h : NodupKeys s.peerConnections) :
    NodupKeys (handleIceCandidate s p c).peerConnections := by
  unfold handleIceCandidate
  cases hpc : aget s.peerConnections p with
  | none => exact h
  | some pc =>
    dsimp only
    by_cases hs : pc.remoteDescription.isSome = true
    · rw [if_pos hs]
      exact nodupKeys_aset s.peerConnections p _ h
    · rw [if_neg hs]
      exact h

theorem nodup_establish (s : HookState) (l : List String)
    (h : NodupKeys s.peerConnections) :
    NodupKeys (establishConnections s l).peerConnections := by
  unfold establishConnections
  split <;> exact h

theorem nodup_connChange (s : HookState) (p : String) (st : ConnState)
    (h : NodupKeys s.peerConnections) :
    NodupKeys (connStateChange s p st).peerConnections := by
  unfold connStateChange
  split
  · exact h
  have h1 :
      NodupKeys
        (match aget s.peerConnections p with
          | some pc =>
              { s with
                peerConnections := aset s.peerConnections p { pc with connectionState := st } }
          | none => s).peerConnections := by
    cases hpc : aget s.peerConnections p with
    | none => exact h
    | some pc => exact nodupKeys_aset s.peerConnections p _ h
  cases st <;> first
    | exact h1
    | exact nodup_failure _ p h1

theorem nodup_retryFire (s : HookState) (p : String)
    (h : NodupKeys s.peerConnections) :
    NodupKeys (retryFire s p).peerConnections := by
  unfold retryFire
  split
  · exact nodup_initiateCall s p h
  · exact h

theorem nodup_grace (f : Nat → ConnState) (t : Nat) (s : HookState) (p : String)
    (h : NodupKeys s.peerConnections) :
    NodupKeys (disconnectGraceStep f t s p).peerConnections := by
  unfold disconnectGraceStep
  split
  · exact nodup_failure s p h
  · exact h

/-- Every reachable state of the hook has a pool with at most one entry
per peer id. -/
theorem reachable_nodupKeys {me : String} {s : HookState} (h : Reachable me s) :
    NodupKeys s.peerConnections := by
  induction h with
  | init => exact List.nodup_nil
  | step _ hstep ih =>
    cases hstep with
    | initiate p => exact nodup_initiateCall _ p ih
    | offer p => exact nodup_handleOffer _ p ih
    | answer p => exact nodup_handleAnswer _ p ih
    | ice p c => exact nodup_handleIce _ p c ih
    | establish l => exact nodup_establish _ l ih
    | remove p => exact nodup_removePeer _ p ih
    | fail p => exact nodup_failure _ p ih
    | connChange p st => exact nodup_connChange _ p st ih
    | retry p => exact nodup_retryFire _ p ih
    | grace f t p => exact nodup_grace f t _ p ih

/-! ### Claim theorems -/

/-- C1 counterexample: in a glare between local player `a` (with a pending
offer toward `b`) and incoming offerer `b`, the side with the
lexicographically smaller id (`a`) does not yield: `handleOffer` leaves
its state completely unchanged — it stays Initiator and sends no answer —
contradicting the claim that the smaller id becomes Responder. -/
theorem C1_counterexample :
    strLt "a" "b" = true ∧
    glareA.playerId = some "a" ∧
    glareA.pendingOffers.contains "b" = true ∧
    handleOffer glareA "b" = glareA ∧
    aget (handleOffer glareA "b").isInitiator "b" = some true := by decide

/-- C1 (amended): glare tie-break as the code implements it — when an
offer from `fromP` arrives while a local offer toward `fromP` is pending,
the side with the lexicographically smaller id ignores the incoming offer
and proceeds as Initiator (state unchanged), while the side with the
larger id yields: it processes the offer, becomes Responder
(`isInitiator = false`) and sends an answer. -/
theorem C1_glare_tiebreak (s : HookState) (me fromP : String)
    (hid : s.playerId = some me) (hpend : s.pendingOffers.contains fromP = true)
    (hls : s.localStream = true) (hg : s.gameId = true)
    (hnw : (aget s.peerConnections fromP).elim false isWorking = false) :
    (strLt me fromP = true → handleOffer s fromP = s) ∧
    (strLt fromP me = true →
      aget (handleOffer s fromP).isInitiator fromP = some false ∧
      (handleOffer s fromP).sent = s.sent ++ [("answer", fromP)]) := by
  constructor
  · intro hlt
    exact handleOffer_ignored s hid hpend hlt
  · intro hgt
    exact handleOffer_responds s hls hg hid hnw (strLt_asymm hgt)

/-- Witness for `C1_glare_tiebreak` at the concrete glare between players
`a` and `b`. -/
theorem C1_glare_tiebreak_witness :
    handleOffer glareA "b" = glareA ∧
    aget (handleOffer glareB "a").isInitiator "a" = some false ∧
    (handleOffer glareB "a").sent = glareB.sent ++ [("answer", "a")] :=
  ⟨(C1_glare_tiebreak glareA "a" "b" (by decide) (by decide) (by decide) (by decide)
      (by decide)).1 (by decide),
   ((C1_glare_tiebreak glareB "b" "a" (by decide) (by decide) (by decide) (by decide)
      (by decide)).2 (by decide)).1,
   ((C1_glare_tiebreak glareB "b" "a" (by decide) (by decide) (by decide) (by decide)
      (by decide)).2 (by decide)).2⟩

/-- C2: a candidate from `b` that arrives while the initiator is awaiting
the answer is queued (first conjunct); after the answer arrives and the
remote description is set, the candidate has not been applied and is still
sitting in the queue (the code drains the queue only inside
`createPeerConnection`, never after `setRemoteDescription`), contradicting
the claim that queued candidates are applied exactly once immediately
after the remote description is set. -/
theorem C2_candidate_lost :
    aget (handleIceCandidate glareA "b" 42).iceCandidateQueue "b" = some [42] ∧
    (aget candidateAfterAnswer.peerConnections "b").map (fun pc => pc.remoteDescription) =
      some (some Desc.answer) ∧
    (aget candidateAfterAnswer.peerConnections "b").map (fun pc => pc.appliedCandidates) =
      some [] ∧
    aget candidateAfterAnswer.iceCandidateQueue "b" = some [42] := by decide

/-- C3: the retry bound of three does not hold: because
`handleConnectionFailure` stores the incremented attempt count and then
immediately calls `removePeerConnection`, which deletes it, the count read
at every failure is `0`; five consecutive failures schedule five retries
(each re-initiating the call), and the connection is still alive in the
pool afterwards rather than terminally removed. -/
theorem C3_retry_unbounded :
    (iterRound "b" 5 glareA).scheduledRetries =
      [("b", 2000), ("b", 2000), ("b", 2000), ("b", 2000), ("b", 2000)] ∧
    (aget (iterRound "b" 5 glareA).peerConnections "b").isSome = true := by decide

/-- C4: in every reachable hook state the pool has at most one connection
per peer id, and `createPeerConnection` preserves this, closes the
previous connection before replacing it, and reuses (without closing) a
previous connection exactly when it is `connected`/`connecting`. -/
theorem C4_pool_unique {me : String} {s : HookState} (h : Reachable me s) :
    NodupKeys s.peerConnections ∧
    (∀ p init, NodupKeys (createPeerConnection s p init).2.peerConnections) ∧
    (∀ p init old, aget s.peerConnections p = some old → isWorking old = false →
      old ∈ (createPeerConnection s p init).2.closedLog) ∧
    (∀ p init old, aget s.peerConnections p = some old → isWorking old = true →
      createPeerConnection s p init = (old, s)) := by
  have hnd := reachable_nodupKeys h
  refine ⟨hnd, fun p init => nodup_createPC s p init hnd, ?_, ?_⟩
  · intro p init old hold hw
    simp [createPeerConnection, hold, hw, createPeerConnectionNew]
  · intro p init old hold hw
    simp [createPeerConnection, hold, hw]

/-- Witness for `C4_pool_unique`: the reachable glare state (replacement
closes the old connection) and the reachable connected state (the working
connection is reused untouched). -/
theorem C4_pool_unique_witness :
    NodupKeys glareA.peerConnections ∧
    offerPC ∈ (createPeerConnection glareA "b" true).2.closedLog ∧
    createPeerConnection connectedState "b" true = (connectedPC, connectedState) := by
  have hA : Reachable "a" glareA :=
    Reachable.step Reachable.init (Step.initiate (initState "a") "b")
  have hC : Reachable "a" connectedState :=
    Reachable.step
      (Reachable.step (Reachable.step Reachable.init (Step.initiate (initState "a") "b"))
        (Step.answer (initiateCall (initState "a") "b") "b"))
      (Step.connChange (handleAnswer (initiateCall (initState "a") "b") "b") "b"
        ConnState.connected)
  exact ⟨(C4_pool_unique hA).1,
    (C4_pool_unique hA).2.2.1 "b" true offerPC (by decide) (by decide),
    (C4_pool_unique hC).2.2.2 "b" true connectedPC (by decide) (by decide)⟩

/-- C5: glare outcome — whenever two distinct peers `a` and `b` each hold
a pending offer toward the other and each receives the other's offer,
exactly one side keeps its Initiator role with its state untouched and the
other becomes Responder and answers, both outcomes determined by the same
deterministic id comparison applied independently on each side. -/
theorem C5_glare_outcome (a b : String) (sA sB : HookState) (hab : a ≠ b)
    (hAid : sA.playerId = some a) (hAls : sA.localStream = true) (hAg : sA.gameId = true)
    (hApend : sA.pendingOffers.contains b = true)
    (hAnw : (aget sA.peerConnections b).elim false isWorking = false)
    (hAi : aget sA.isInitiator b = some true)
    (hBid : sB.playerId = some b) (hBls : sB.localStream = true) (hBg : sB.gameId = true)
    (hBpend : sB.pendingOffers.contains a = true)
    (hBnw : (aget sB.peerConnections a).elim false isWorking = false)
    (hBi : aget sB.isInitiator a = some true) :
    (aget (handleOffer sA b).isInitiator b = some true ∧
     (handleOffer sA b).sent = sA.sent ∧
     aget (handleOffer sB a).isInitiator a = some false ∧
     (handleOffer sB a).sent = sB.sent ++ [("answer", a)]) ∨
    (aget (handleOffer sA b).isInitiator b = some false ∧
     (handleOffer sA b).sent = sA.sent ++ [("answer", b)] ∧
     aget (handleOffer sB a).isInitiator a = some true ∧
     (handleOffer sB a).sent = sB.sent) := by
  rcases strLt_total hab with hlt | hlt
  · left
    have hAeq := handleOffer_ignored sA hAid hApend hlt
    have hB := handleOffer_responds sB hBls hBg hBid hBnw (strLt_asymm hlt)
    exact ⟨by rw [hAeq]; exact hAi, by rw [hAeq], hB.1, hB.2⟩
  · right
    have hBeq := handleOffer_ignored sB hBid hBpend hlt
    have hA := handleOffer_responds sA hAls hAg hAid hAnw (strLt_asymm hlt)
    exact ⟨hA.1, hA.2, by rw [hBeq]; exact hBi, by rw [hBeq]⟩

/-- Witness for `C5_glare_outcome` at the concrete simultaneous call
between players `a` and `b`. -/
theorem C5_glare_outcome_witness :
    (aget (handleOffer glareA "b").isInitiator "b" = some true ∧
     (handleOffer glareA "b").sent = glareA.sent ∧
     aget (handleOffer glareB "a").isInitiator "a" = some false ∧
     (handleOffer glareB "a").sent = glareB.sent ++ [("answer", "a")]) ∨
    (aget (handleOffer glareA "b").isInitiator "b" = some false ∧
     (handleOffer glareA "b").sent = glareA.sent ++ [("answer", "b")] ∧
     aget (handleOffer glareB "a").isInitiator "a" = some true ∧
     (handleOffer glareB "a").sent = glareB.sent) :=
  C5_glare_outcome "a" "b" glareA glareB (by decide) (by decide) (by decide) (by decide)
    (by decide) (by decide) (by decide) (by decide) (by decide) (by decide) (by decide)
    (by decide) (by decide)

/-- C6 counterexample: the connection drops at time 0, returns to
`connected` at 5000 ms — before the 10-second window elapses — drops
again, and the grace-window callback scheduled at time 0 nevertheless
triggers failure handling at 10000 ms (the stale timer only re-reads the
state at fire time; a mid-window recovery does not cancel it),
contradicting the claim that no failure handling is performed when the
connection returns to `connected` before the window elapses. -/
theorem C6_counterexample :
    blipTimeline 0 = ConnState.disconnected ∧
    blipTimeline 5000 = ConnState.connected ∧
    5000 < GRACE_MS ∧
    disconnectGraceCheck blipTimeline 0 = true ∧
    disconnectGraceStep blipTimeline 0 glareA "b" ≠ glareA := by decide

/-- C6 (amended): the grace-window callback triggers failure handling
based solely on the connection state at the moment the 10-second window
expires: whenever the connection does not read `disconnected` at expiry
(in particular when it is `connected` then), no failure handling is
performed; a transient mid-window recovery by itself does not cancel the
pending check. -/
theorem C6_grace_amended (f : Nat → ConnState) (t : Nat) (s : HookState) (p : String)
    (h : f (t + GRACE_MS) ≠ ConnState.disconnected) :
    disconnectGraceStep f t s p = s := by
  have hc : (f (t + GRACE_MS) == ConnState.disconnected) = false := by simp [h]
  simp [disconnectGraceStep, disconnectGraceCheck, hc]

/-- Witness for `C6_grace_amended`: a connection that is `connected` when
the window expires is not failure-handled. -/
theorem C6_grace_amended_witness :
    disconnectGraceStep (fun _ => ConnState.connected) 0 glareA "b" = glareA :=
  C6_grace_amended (fun _ => ConnState.connected) 0 glareA "b" (by decide)

/-- C7: isolation — removing peer `x`'s connection or running failure
handling for `x` leaves every per-peer entry of any other peer `y` (pool
entry, attempt counter, pending-offer flag, initiator flag, recorded
connection state, established flag, candidate queue, remote stream)
unchanged. -/
theorem C7_isolation (s : HookState) {x y : String} (h : y ≠ x) :
    (aget (removePeerConnection s x).peerConnections y = aget s.peerConnections y ∧
     aget (removePeerConnection s x).connectionAttempts y = aget s.connectionAttempts y ∧
     ((y ∈ (removePeerConnection s x).pendingOffers) ↔ y ∈ s.pendingOffers) ∧
     aget (removePeerConnection s x).isInitiator y = aget s.isInitiator y ∧
     aget (removePeerConnection s x).connectionStates y = aget s.connectionStates y ∧
     ((y ∈ (removePeerConnection s x).establishedConnections) ↔
       y ∈ s.establishedConnections) ∧
     aget (removePeerConnection s x).iceCandidateQueue y = aget s.iceCandidateQueue y ∧
     ((y ∈ (removePeerConnection s x).remoteStreams) ↔ y ∈ s.remoteStreams)) ∧
    (aget (handleConnectionFailure s x).peerConnections y = aget s.peerConnections y ∧
     aget (handleConnectionFailure s x).connectionAttempts y = aget s.connectionAttempts y ∧
     ((y ∈ (handleConnectionFailure s x).pendingOffers) ↔ y ∈ s.pendingOffers) ∧
     aget (handleConnectionFailure s x).isInitiator y = aget s.isInitiator y ∧
     aget (handleConnectionFailure s x).connectionStates y = aget s.connectionStates y ∧
     ((y ∈ (handleConnectionFailure s x).establishedConnections) ↔
       y ∈ s.establishedConnections) ∧
     aget (handleConnectionFailure s x).iceCandidateQueue y = aget s.iceCandidateQueue y ∧
     ((y ∈ (handleConnectionFailure s x).remoteStreams) ↔ y ∈ s.remoteStreams)) :=
  ⟨removePeer_frame s h, handleFailure_frame s h⟩

/-- Witness for `C7_isolation`: with pending connections to both `b` and
`c`, removing or failure-handling `b` leaves all of `c`'s entries
unchanged. -/
theorem C7_isolation_witness :
    (aget (removePeerConnection twoPeers "b").peerConnections "c" =
       aget twoPeers.peerConnections "c" ∧
     aget (removePeerConnection twoPeers "b").connectionAttempts "c" =
       aget twoPeers.connectionAttempts "c" ∧
     (("c" ∈ (removePeerConnection twoPeers "b").pendingOffers) ↔
       "c" ∈ twoPeers.pendingOffers) ∧
     aget (removePeerConnection twoPeers "b").isInitiator "c" = aget twoPeers.isInitiator "c" ∧
     aget (removePeerConnection twoPeers "b").connectionStates "c" =
       aget twoPeers.connectionStates "c" ∧
     (("c" ∈ (removePeerConnection twoPeers "b").establishedConnections) ↔
       "c" ∈ twoPeers.establishedConnections) ∧
     aget (removePeerConnection twoPeers "b").iceCandidateQueue "c" =
       aget twoPeers.iceCandidateQueue "c" ∧
     (("c" ∈ (removePeerConnection twoPeers "b").remoteStreams) ↔
       "c" ∈ twoPeers.remoteStreams)) ∧
    (aget (handleConnectionFailure twoPeers "b").peerConnections "c" =
       aget twoPeers.peerConnections "c" ∧
     aget (handleConnectionFailure twoPeers "b").connectionAttempts "c" =
       aget twoPeers.connectionAttempts "c" ∧
     (("c" ∈ (handleConnectionFailure twoPeers "b").pendingOffers) ↔
       "c" ∈ twoPeers.pendingOffers) ∧
     aget (handleConnectionFailure twoPeers "b").isInitiator "c" =
       aget twoPeers.isInitiator "c" ∧
     aget (handleConnectionFailure twoPeers "b").connectionStates "c" =
       aget twoPeers.connectionStates "c" ∧
     (("c" ∈ (handleConnectionFailure twoPeers "b").establishedConnections) ↔
       "c" ∈ twoPeers.establishedConnections) ∧
     aget (handleConnectionFailure twoPeers "b").iceCandidateQueue "c" =
       aget twoPeers.iceCandidateQueue "c" ∧
     (("c" ∈ (handleConnectionFailure twoPeers "b").remoteStreams) ↔
       "c" ∈ twoPeers.remoteStreams)) :=
  C7_isolation twoPeers (by decide)

/-- C8: the backoff before each re-initiation is not increasing: four
consecutive failures of the same initiator connection all schedule their
retry with the same 2000 ms delay, because `removePeerConnection` erases
the attempt counter that the delay formula `2000 + attempts * 2000`
depends on — contradicting both the claim and the code's own comment
promising increasing delays of 2s, 4s, 6s. -/
theorem C8_backoff_constant :
    ((iterRound "b" 4 glareA).scheduledRetries.map Prod.snd) =
      [2000, 2000, 2000, 2000] := by decide

/-- C9: duplicate and stale signaling messages are no-ops: an answer
arriving when no connection exists for the sender or the connection is not
in `have-local-offer` leaves the state untouched, and an offer arriving
while the connection to that peer is `connected`/`connecting` leaves the
state untouched. -/
theorem C9_stale_noop (s : HookState) (fromP : String) :
    ((aget s.peerConnections fromP).elim false
        (fun pc => pc.signalingState == SigState.haveLocalOffer) = false →
      handleAnswer s fromP = s) ∧
    ((aget s.peerConnections fromP).elim false isWorking = true →
      handleOffer s fromP = s) := by
  constructor
  · intro hna
    unfold handleAnswer
    cases hpc : aget s.peerConnections fromP with
    | none => rfl
    | some pc =>
      have hsig : (pc.signalingState == SigState.haveLocalOffer) = false := by
        simpa [hpc] using hna
      dsimp only
      rw [if_neg (by simp [hsig])]
  · intro hw
    unfold handleOffer
    by_cases h1 : (!s.localStream || !s.gameId) = true
    · rw [if_pos h1]
    · rw [if_neg h1, if_pos hw]

/-- Witness for `C9_stale_noop`: on a connected, stable connection a
further answer and a further offer are both ignored. -/
theorem C9_stale_noop_witness :
    handleAnswer connectedState "b" = connectedState ∧
    handleOffer connectedState "b" = connectedState :=
  ⟨(C9_stale_noop connectedState "b").1 (by decide),
   (C9_stale_noop connectedState "b").2 (by decide)⟩

/-- C10 counterexample: with the local media stream not started, an
incoming ICE candidate is not a silent no-op: `handleIceCandidate` changes
the state by buffering the candidate in the queue, refuting the claim that
every entry point of the layer is a silent no-op before `startLocalStream`
succeeds. -/
theorem C10_counterexample :
    noMediaState.localStream = false ∧
    handleIceCandidate noMediaState "b" 7 ≠ noMediaState ∧
    aget (handleIceCandidate noMediaState "b" 7).iceCandidateQueue "b" = some [7] := by
  decide

/-- C10 (amended): while the local media stream has not been started,
`handleOffer` is a silent no-op (the offer is discarded, not buffered, no
responder connection is created), `initiateCall` and
`establishConnections` are silent no-ops sending and scheduling nothing;
`handleIceCandidate`, however, is not a no-op: with no connection for the
sender it still appends the candidate to that peer's queue. -/
theorem C10_media_guard (s : HookState) (fromP p : String) (l : List String) (c : Nat)
    (h : s.localStream = false) :
    handleOffer s fromP = s ∧
    initiateCall s p = s ∧
    establishConnections s l = s ∧
    (aget s.peerConnections fromP = none →
      aget (handleIceCandidate s fromP c).iceCandidateQueue fromP =
        some (((aget s.iceCandidateQueue fromP).getD []) ++ [c])) := by
  refine ⟨?_, ?_, ?_, ?_⟩
  · simp [handleOffer, h]
  · simp [initiateCall, h]
  · simp [establishConnections, h]
  · intro hpc
    simp [handleIceCandidate, hpc, queueCandidate, aget_aset_self]

/-- Witness for `C10_media_guard` before any media stream exists. -/
theorem C10_media_guard_witness :
    handleOffer noMediaState "b" = noMediaState ∧
    initiateCall noMediaState "b" = noMediaState ∧
    establishConnections noMediaState ["b"] = noMediaState ∧
    aget (handleIceCandidate noMediaState "b" 7).iceCandidateQueue "b" = some [7] := by
  obtain ⟨h1, h2, h3, h4⟩ := C10_media_guard noMediaState "b" "b" ["b"] 7 rfl
  exact ⟨h1, h2, h3, h4 rfl⟩
